import Mathlib

/-!
Verification development for the PokeCard-TCG-detector repository.

The repository has three Python source files:
* `api.py` — a Flask service exposing `/match`, `/match_file`, `/compute_hash`,
  `/add_card`, `/recognize` over a global pandas DataFrame `card_hashes` with
  columns `id, perceptual, difference, wavelet, color` (plus a scratch
  `distance` column written by `get_most_similar`);
* `compute_hash.py` — a standalone CLI computing the four hashes of one image;
* `update_hashes_from_tcgdex.py` — the incremental catalog builder.

The definitions below are a shallow embedding of those files.  Images are
represented by the fingerprints the `imagehash` library computes for them
(the pixel-level hash computation itself is external library code); an
`ImageHash` value is a flat boolean vector, and `ImageHash.__sub__` is the
Hamming distance of two equal-length vectors (it raises `TypeError` on a
shape mismatch).  pandas `Series.nsmallest(n)` with the default
`keep='first'` is embedded as a stable selection of the `n` smallest
values (pandas implements the selection with `kth_smallest` followed by a
stable `mergesort` over positions, so ties come out in positional order),
returning an empty selection for `n ≤ 0`.
-/

namespace PokeDetector

/-- The four fingerprint vectors computed for one image
(`get_hashes` in `api.py`, lines 23-34): each `imagehash` value is a flat
vector of bits. -/
structure FingerprintSet where
  perceptual : List Bool
  difference : List Bool
  wavelet : List Bool
  color : List Bool
deriving Repr, DecidableEq

/-- One row of the `card_hashes` DataFrame: a card id together with its four
fingerprints. -/
structure CardHashRecord where
  id : String
  fingerprints : FingerprintSet
deriving Repr, DecidableEq

/-- The in-memory `card_hashes` DataFrame of `api.py`: the ordered record
rows plus the scratch `distance` column that `get_most_similar` writes on
line 50 (absent until the first call). -/
structure CardHashes where
  rows : List CardHashRecord
  distanceCol : Option (List Int)
deriving Repr, DecidableEq

/-- One entry of the result list of `get_most_similar`. -/
structure MatchResult where
  id : String
  distance : Int
deriving Repr, DecidableEq

/-- Python-level errors that the matching path can raise. -/
inductive PyError where
  | keyError (key : String)
  | typeError (msg : String)
deriving Repr, DecidableEq

deriving instance DecidableEq for Except

/-- Column/dict lookup of a fingerprint by hash-type name: both the
DataFrame columns and the dict built by `get_hashes` hold exactly the keys
`perceptual`, `difference`, `wavelet`, `color`; any other key raises
`KeyError` (returns `none` here). -/
def fingerprintOf (fp : FingerprintSet) (t : String) : Option (List Bool) :=
  if t = "perceptual" then some fp.perceptual
  else if t = "difference" then some fp.difference
  else if t = "wavelet" then some fp.wavelet
  else if t = "color" then some fp.color
  else none

/-- Length of the fingerprint of type `t` (0 for an unknown type). -/
def fingerprintLen (fp : FingerprintSet) (t : String) : Nat :=
  ((fingerprintOf fp t).getD []).length

/-- Hamming distance of two bit vectors: the number of positions where they
differ (`imagehash.ImageHash.__sub__` computes
`count_nonzero(self.hash != other.hash)`). -/
def hammingDistance (a b : List Bool) : Int :=
  ((a.zip b).filter (fun p => p.1 != p.2)).length

/-- `ImageHash.__sub__`: raises `TypeError` when the two hashes have
different shapes, otherwise returns the Hamming distance. -/
def imageHashSub (a b : List Bool) : Except PyError Int :=
  if a.length = b.length then .ok (hammingDistance a b)
  else .error (.typeError "ImageHashes must be of the same shape.")

/-- The element-wise subtraction `card_hashes[hash_type] - hashes_dict[hash_type]`
(`api.py` line 50): record hash minus query hash per row; the first shape
mismatch raises and aborts the whole column assignment. -/
def computeDistances : List CardHashRecord → List Bool → String → Except PyError (List Int)
  | [], _, _ => .ok []
  | r :: rs, qh, t =>
    match imageHashSub ((fingerprintOf r.fingerprints t).getD []) qh with
    | .error e => .error e
    | .ok d =>
      match computeDistances rs qh t with
      | .error e => .error e
      | .ok ds => .ok (d :: ds)

/-- Comparison used to model pandas `nsmallest(keep='first')`: order index /
value pairs by value, breaking ties toward the smaller (earlier) index. -/
def RankLE (a b : Nat × Int) : Prop :=
  a.2 < b.2 ∨ (a.2 = b.2 ∧ a.1 ≤ b.1)

instance : DecidableRel RankLE := fun a b => by
  unfold RankLE; infer_instance

instance : IsTotal (Nat × Int) RankLE :=
  ⟨fun a b => by unfold RankLE; omega⟩

instance : IsTrans (Nat × Int) RankLE :=
  ⟨fun a b c hab hbc => by unfold RankLE at *; omega⟩

/-- `card_hashes["distance"].nsmallest(n).index` (`api.py` line 53): the row
positions of the `n` smallest distances, ordered by distance with ties in
positional (catalog insertion) order; empty for `n ≤ 0` (pandas
`SelectNSeries.compute` returns an empty selection for `n <= 0`).  Since the
sort keys (value, position) are pairwise distinct, the sorted permutation is
unique and the choice of sorting algorithm is immaterial. -/
def nsmallestIdx (dists : List Int) (n : Int) : List Nat :=
  if n ≤ 0 then []
  else ((List.insertionSort RankLE dists.enum).take n.toNat).map (·.1)

/-- Reading row `i` back out of the DataFrame
(`card_hashes.loc[idx, "id"]` / `card_hashes.loc[idx, "distance"]`,
`api.py` lines 56-60). -/
def rowEntry (rows : List CardHashRecord) (dists : List Int) (i : Nat) : MatchResult :=
  { id := (rows.map (·.id)).getD i ""
    distance := dists.getD i 0 }

/-- `get_most_similar(img, hash_type, n)` (`api.py` lines 37-62).  The query
image is represented by its computed `FingerprintSet` (the result of
`get_hashes(img)`).  Returns the updated DataFrame — the function writes the
`distance` column on the shared global DataFrame before selecting — together
with the result list; an unknown `hash_type` raises `KeyError` and a shape
mismatch raises `TypeError`, in both cases before the column assignment. -/
def get_most_similar (ch : CardHashes) (q : FingerprintSet) (hashType : String) (n : Int) :
    Except PyError (CardHashes × List MatchResult) :=
  match fingerprintOf q hashType with
  | none => .error (.keyError hashType)
  | some qh =>
    match computeDistances ch.rows qh hashType with
    | .error e => .error e
    | .ok dists =>
      let ch' : CardHashes := { rows := ch.rows, distanceCol := some dists }
      .ok (ch', (nsmallestIdx dists n).map (rowEntry ch.rows dists))

/-- The distance column that a successful call of `get_most_similar` with a
valid hash type computes: one Hamming distance per catalog row. -/
def distancesOf (ch : CardHashes) (q : FingerprintSet) (t : String) : List Int :=
  ch.rows.map (fun r =>
    hammingDistance ((fingerprintOf r.fingerprints t).getD []) ((fingerprintOf q t).getD []))

/-- A hash type accepted by the code: one of the four dict keys. -/
def ValidHashType (t : String) : Prop :=
  t = "perceptual" ∨ t = "difference" ∨ t = "wavelet" ∨ t = "color"

instance (t : String) : Decidable (ValidHashType t) := by
  unfold ValidHashType; infer_instance

lemma fingerprintOf_isSome_of_valid {q : FingerprintSet} {t : String} (ht : ValidHashType t) :
    fingerprintOf q t = some ((fingerprintOf q t).getD []) := by
  rcases ht with h | h | h | h <;> subst h <;> rfl

lemma computeDistances_eq_ok (rows : List CardHashRecord) (qh : List Bool) (t : String)
    (h : ∀ r ∈ rows, ((fingerprintOf r.fingerprints t).getD []).length = qh.length) :
    computeDistances rows qh t =
      .ok (rows.map (fun r => hammingDistance ((fingerprintOf r.fingerprints t).getD []) qh)) := by
  induction rows with
  | nil => rfl
  | cons r rs ih =>
    have hr := h r (List.mem_cons_self r rs)
    have hrest := ih (fun x hx => h x (List.mem_cons_of_mem _ hx))
    simp only [computeDistances, imageHashSub, if_pos hr, hrest, List.map_cons]

lemma sort_enum_fst_nodup (dists : List Int) :
    ((List.insertionSort RankLE dists.enum).map Prod.fst).Nodup := by
  have h : (dists.enum.map Prod.fst).Nodup := by
    rw [List.enum_map_fst]; exact List.nodup_range _
  exact (((List.perm_insertionSort RankLE dists.enum).map Prod.fst).symm).nodup h

/-- After sorting the enumerated distance column, consecutive entries are
strictly ordered by (distance, position): equal distances keep their
positional order. -/
lemma sort_enum_strict (dists : List Int) :
    (List.insertionSort RankLE dists.enum).Pairwise
      (fun a b => a.2 < b.2 ∨ (a.2 = b.2 ∧ a.1 < b.1)) := by
  have h1 : (List.insertionSort RankLE dists.enum).Pairwise RankLE :=
    List.sorted_insertionSort RankLE dists.enum
  have h2 : (List.insertionSort RankLE dists.enum).Pairwise (fun a b => a.1 ≠ b.1) :=
    List.pairwise_map.mp (sort_enum_fst_nodup dists)
  refine (h1.and h2).imp ?_
  intro a b hab
  obtain ⟨hle, hne⟩ := hab
  unfold RankLE at hle
  omega

lemma mem_sort_enum (dists : List Int) (p : Nat × Int)
    (hp : p ∈ List.insertionSort RankLE dists.enum) : dists.getD p.1 0 = p.2 := by
  have hmem : p ∈ dists.enum := (List.perm_insertionSort RankLE dists.enum).mem_iff.mp hp
  have := List.mem_enum_iff_getElem?.mp hmem
  rw [List.getD_eq_getElem?_getD, this]
  rfl

lemma nsmallestIdx_length (dists : List Int) (n : Int) :
    (nsmallestIdx dists n).length = if n ≤ 0 then 0 else min n.toNat dists.length := by
  unfold nsmallestIdx
  split
  · rfl
  · simp [(List.perm_insertionSort RankLE dists.enum).length_eq, List.enum_length]

/-- The selected positions are ordered by distance, ties broken toward the
earlier (first-inserted) position. -/
lemma nsmallestIdx_pairwise (dists : List Int) (n : Int) :
    (nsmallestIdx dists n).Pairwise
      (fun i j => dists.getD i 0 < dists.getD j 0 ∨ (dists.getD i 0 = dists.getD j 0 ∧ i < j)) := by
  unfold nsmallestIdx
  split
  · simp
  · rw [List.pairwise_map]
    have hstrict : ((List.insertionSort RankLE dists.enum).take n.toNat).Pairwise
        (fun a b => a.2 < b.2 ∨ (a.2 = b.2 ∧ a.1 < b.1)) :=
      (sort_enum_strict dists).sublist (List.take_sublist _ _)
    refine hstrict.imp_of_mem ?_
    intro a b ha hb hab
    have ha' := mem_sort_enum dists a ((List.take_sublist _ _).subset ha)
    have hb' := mem_sort_enum dists b ((List.take_sublist _ _).subset hb)
    rw [ha', hb']
    exact hab

lemma nsmallestIdx_sorted (dists : List Int) (n : Int) :
    List.Sorted (· ≤ ·) ((nsmallestIdx dists n).map (fun i => dists.getD i 0)) := by
  rw [List.Sorted, List.pairwise_map]
  refine (nsmallestIdx_pairwise dists n).imp ?_
  intro i j h
  rcases h with h | ⟨h, _⟩
  · exact le_of_lt h
  · exact le_of_eq h

/-- Normal form of a successful `get_most_similar` call. -/
lemma get_most_similar_eq (ch : CardHashes) (q : FingerprintSet) (t : String) (n : Int)
    (ht : ValidHashType t)
    (hlen : ∀ r ∈ ch.rows, fingerprintLen r.fingerprints t = fingerprintLen q t) :
    get_most_similar ch q t n =
      .ok ({ rows := ch.rows, distanceCol := some (distancesOf ch q t) },
           (nsmallestIdx (distancesOf ch q t) n).map (rowEntry ch.rows (distancesOf ch q t))) := by
  have hq := fingerprintOf_isSome_of_valid (q := q) ht
  have hd := computeDistances_eq_ok ch.rows ((fingerprintOf q t).getD []) t
    (fun r hr => hlen r hr)
  unfold get_most_similar
  rw [hq]
  dsimp only
  rw [hd]
  rfl

lemma distancesOf_length (ch : CardHashes) (q : FingerprintSet) (t : String) :
    (distancesOf ch q t).length = ch.rows.length := by
  simp [distancesOf]

/-- C1: for every catalog and query image (with a recognized hash type and
shape-compatible fingerprints), `get_most_similar` returns a list sorted by
non-decreasing distance whose length is at most `n`, equal to the catalog
size whenever `n` exceeds the catalog size; for an empty catalog or `n ≤ 0`
it returns an empty list without raising. -/
theorem match_sorted_and_bounded (ch : CardHashes) (q : FingerprintSet) (t : String) (n : Int)
    (ht : ValidHashType t)
    (hlen : ∀ r ∈ ch.rows, fingerprintLen r.fingerprints t = fingerprintLen q t) :
    ∃ ch' res, get_most_similar ch q t n = .ok (ch', res) ∧
      List.Sorted (· ≤ ·) (res.map (·.distance)) ∧
      res.length ≤ n.toNat ∧
      ((ch.rows.length : Int) < n → res.length = ch.rows.length) ∧
      (n ≤ 0 → res = []) ∧
      (ch.rows = [] → res = []) := by
  refine ⟨_, _, get_most_similar_eq ch q t n ht hlen, ?_, ?_, ?_, ?_, ?_⟩
  · have hmap : (((nsmallestIdx (distancesOf ch q t) n).map
        (rowEntry ch.rows (distancesOf ch q t))).map (·.distance))
        = (nsmallestIdx (distancesOf ch q t) n).map
            (fun i => (distancesOf ch q t).getD i 0) := by
      simp [rowEntry, Function.comp]
    rw [hmap]
    exact nsmallestIdx_sorted _ n
  · rw [List.length_map, nsmallestIdx_length]
    split
    · exact Nat.zero_le _
    · exact min_le_left _ _
  · intro hgt
    rw [List.length_map, nsmallestIdx_length, distancesOf_length]
    have h0 : ¬ n ≤ 0 := by omega
    rw [if_neg h0]
    omega
  · intro hle
    rw [List.map_eq_nil_iff]
    unfold nsmallestIdx
    rw [if_pos hle]
  · intro hnil
    have : (nsmallestIdx (distancesOf ch q t) n).length = 0 := by
      rw [nsmallestIdx_length, distancesOf_length, hnil]
      simp
    rw [List.map_eq_nil_iff]
    exact List.eq_nil_of_length_eq_zero this

/-- Catalog and query used to instantiate the universally quantified
matching theorems: two records at distances 1 and 0 from the query. -/
def wFpOnes : FingerprintSet := ⟨[true, true], [true], [true], [false]⟩

def wFpQuery : FingerprintSet := ⟨[false, true], [true], [true], [false]⟩

def wCatalog : CardHashes := ⟨[⟨"base4-1", wFpOnes⟩, ⟨"sv01-2", wFpQuery⟩], none⟩

theorem match_sorted_and_bounded_witness :
    ∃ ch' res, get_most_similar wCatalog wFpQuery "perceptual" 5 = .ok (ch', res) ∧
      List.Sorted (· ≤ ·) (res.map (·.distance)) ∧
      res.length ≤ (5 : Int).toNat ∧
      ((wCatalog.rows.length : Int) < 5 → res.length = wCatalog.rows.length) ∧
      ((5 : Int) ≤ 0 → res = []) ∧
      (wCatalog.rows = [] → res = []) :=
  match_sorted_and_bounded wCatalog wFpQuery "perceptual" 5 (Or.inl rfl) (by decide)

/-- C2: ties at the same distance are selected and ordered by catalog
insertion order (first-inserted wins), and the result is a deterministic
function of the catalog and query: a successful call is exactly the stable
selection over the computed distance column, and the selected positions are
pairwise ordered by (distance, insertion position). -/
theorem match_tie_break_insertion_order (ch : CardHashes) (q : FingerprintSet) (t : String)
    (n : Int) (ht : ValidHashType t)
    (hlen : ∀ r ∈ ch.rows, fingerprintLen r.fingerprints t = fingerprintLen q t) :
    get_most_similar ch q t n =
      .ok ({ rows := ch.rows, distanceCol := some (distancesOf ch q t) },
           (nsmallestIdx (distancesOf ch q t) n).map (rowEntry ch.rows (distancesOf ch q t))) ∧
    (nsmallestIdx (distancesOf ch q t) n).Pairwise
      (fun i j => (distancesOf ch q t).getD i 0 < (distancesOf ch q t).getD j 0 ∨
        ((distancesOf ch q t).getD i 0 = (distancesOf ch q t).getD j 0 ∧ i < j)) :=
  ⟨get_most_similar_eq ch q t n ht hlen, nsmallestIdx_pairwise _ n⟩

/-- Catalog with two records whose perceptual fingerprints are identical, so
both are at the same distance from any query: a tie. -/
def wTieCatalog : CardHashes := ⟨[⟨"first-1", wFpOnes⟩, ⟨"second-2", wFpOnes⟩], none⟩

theorem match_tie_break_insertion_order_witness :
    get_most_similar wTieCatalog wFpQuery "perceptual" 2 =
      .ok ({ rows := wTieCatalog.rows,
             distanceCol := some (distancesOf wTieCatalog wFpQuery "perceptual") },
           (nsmallestIdx (distancesOf wTieCatalog wFpQuery "perceptual") 2).map
             (rowEntry wTieCatalog.rows (distancesOf wTieCatalog wFpQuery "perceptual"))) ∧
    (nsmallestIdx (distancesOf wTieCatalog wFpQuery "perceptual") 2).Pairwise
      (fun i j => (distancesOf wTieCatalog wFpQuery "perceptual").getD i 0 <
          (distancesOf wTieCatalog wFpQuery "perceptual").getD j 0 ∨
        ((distancesOf wTieCatalog wFpQuery "perceptual").getD i 0 =
            (distancesOf wTieCatalog wFpQuery "perceptual").getD j 0 ∧ i < j)) :=
  match_tie_break_insertion_order wTieCatalog wFpQuery "perceptual" 2 (Or.inl rfl) (by decide)

/-- C5 (amended): the matching path never changes the record rows of the
in-memory catalog — ids, fingerprints, count and order are preserved by any
successful `get_most_similar` call. -/
theorem match_preserves_records (ch : CardHashes) (q : FingerprintSet) (t : String) (n : Int)
    (ch' : CardHashes) (res : List MatchResult)
    (h : get_most_similar ch q t n = .ok (ch', res)) : ch'.rows = ch.rows := by
  unfold get_most_similar at h
  cases hq : fingerprintOf q t with
  | none => rw [hq] at h; exact absurd h (by simp)
  | some qh =>
    rw [hq] at h
    dsimp only at h
    cases hd : computeDistances ch.rows qh t with
    | error e => rw [hd] at h; exact absurd h (by simp)
    | ok dists =>
      rw [hd] at h
      dsimp only at h
      have hpair := Except.ok.inj h
      have hch : ch' = { rows := ch.rows, distanceCol := some dists } :=
        (congrArg Prod.fst hpair).symm
      rw [hch]

theorem match_preserves_records_witness :
    ({ rows := wCatalog.rows, distanceCol := some [1, 0] } : CardHashes).rows = wCatalog.rows :=
  match_preserves_records wCatalog wFpQuery "perceptual" 5
    { rows := wCatalog.rows, distanceCol := some [1, 0] }
    [⟨"sv01-2", 0⟩, ⟨"base4-1", 1⟩] (by decide)

/-- C5 (counterexample to the full claim): `get_most_similar` is not fully
read-only — it writes the scratch `distance` column onto the shared
in-memory catalog (`api.py` lines 50-51), observably changing the catalog
object: before the call `distanceCol` is absent, after it holds the
computed column. -/
theorem match_writes_distance_column :
    (get_most_similar wCatalog wFpQuery "perceptual" 5).toOption.map
        (fun p => p.1.distanceCol) = some (some [1, 0]) ∧
    wCatalog.distanceCol = none := by
  constructor
  · rfl
  · rfl

/-!  ## The `/recognize` endpoint: confidence and image-URL derivation  -/

/-- `confidence = max(50, min(100, 100 - (best_match["distance"] / 3)))`
(`api.py` line 347), over exact rationals.  For an integer distance the
value `10 * confidence` is never a half-integer (its fractional part is
0, 1/3 or 2/3), so Python float `round(x, 1)` (half-to-even) and the exact
rational rounding used here agree on every reachable input. -/
def recognizeConfidence (d : Int) : ℚ :=
  max 50 (min 100 (100 - (d : ℚ) / 3))

/-- `round(confidence, 1)` (`api.py` line 374): round to one decimal. -/
def round1 (q : ℚ) : ℚ :=
  (round (q * 10) : ℚ) / 10

/-- `card_id.split("-")` (`api.py` line 355): Python `str.split` on a one
character separator, embedded on character lists. -/
def splitDash : List Char → List (List Char)
  | [] => [[]]
  | c :: cs =>
    if c = '-' then [] :: splitDash cs
    else
      match splitDash cs with
      | s :: ss => (c :: s) :: ss
      | [] => [[c]]

/-- `str.startswith(p)` on character lists. -/
def startsWithChars : List Char → List Char → Bool
  | [], _ => true
  | _ :: _, [] => false
  | p :: ps, c :: cs => p == c && startsWithChars ps cs

/-- `set_id.startswith(("sv", "swsh", "sm", "xy"))` (`api.py` line 360). -/
def isModernSet (setId : List Char) : Bool :=
  startsWithChars "sv".data setId || startsWithChars "swsh".data setId ||
    startsWithChars "sm".data setId || startsWithChars "xy".data setId

/-- TCGdex URL template (`api.py` line 362). -/
def urlTcgdex (setId cardNum : List Char) : List Char :=
  "https://assets.tcgdex.net/en/".data ++ setId ++ "/".data ++ cardNum ++ "/high.png".data

/-- pokemontcg.io URL template (`api.py` line 365). -/
def urlPokemonTcgIo (setId cardNum : List Char) : List Char :=
  "https://images.pokemontcg.io/".data ++ setId ++ "/".data ++ cardNum ++ "_hires.png".data

/-- Fallback URL template for ids without a separator (`api.py` line 368). -/
def urlFallback (cardId : List Char) : List Char :=
  "https://assets.tcgdex.net/en/".data ++ cardId ++ "/high.png".data

/-- The image-URL derivation of `recognize_card` (`api.py` lines 352-368):
`parts = card_id.split("-")`, `set_id = parts[0]`, `card_num = parts[1]`. -/
def imageUrlChars (cardId : List Char) : List Char :=
  if '-' ∈ cardId then
    let parts := splitDash cardId
    let setId := parts.getD 0 []
    let cardNum := parts.getD 1 []
    if isModernSet setId then urlTcgdex setId cardNum
    else urlPokemonTcgIo setId cardNum
  else urlFallback cardId

def imageUrl (cardId : String) : String :=
  ⟨imageUrlChars cardId.data⟩

/-- `card_id.split("-")[0].capitalize()` (`api.py` line 373): Python
`str.capitalize` upper-cases the first character and lower-cases the rest. -/
def pyCapitalize (s : List Char) : List Char :=
  match s with
  | [] => []
  | c :: cs => c.toUpper :: cs.map Char.toLower

def derivedCardName (cardId : String) : String :=
  ⟨pyCapitalize ((splitDash cardId.data).getD 0 [])⟩

/-- The distinct responses the `/match` endpoint can produce
(`match_card` in `api.py`, lines 71-117): a 400 for a missing image, a 200
with the match list, or — for ANY exception, an unknown hash type included —
the catch-all 500 built from `str(e)` by the generic `except` clause.
The code has no dedicated invalid-hash-type branch. -/
inductive MatchResponse where
  | missingImage
  | matches (ms : List MatchResult) (hashType : String)
  | exception (e : PyError)
deriving Repr, DecidableEq

/-- HTTP status code of each `/match` response
(400, 200 and 500 in `api.py` lines 97, 110-114 and 117). -/
def matchStatus : MatchResponse → Nat
  | .missingImage => 400
  | .matches _ _ => 200
  | .exception _ => 500

/-- `match_card` (`api.py` lines 71-117): parse the request, call
`get_most_similar`, catch any exception.  The request image is represented
by its decoded fingerprints (`none` = missing image data); returns the
DataFrame state after the call together with the response. -/
def match_card (ch : CardHashes) (image : Option FingerprintSet) (hashType : String)
    (topN : Int) : CardHashes × MatchResponse :=
  match image with
  | none => (ch, .missingImage)
  | some q =>
    match get_most_similar ch q hashType topN with
    | .error e => (ch, .exception e)
    | .ok (ch', ms) => (ch', .matches ms hashType)

/-- The distinct responses of `/recognize` (`recognize_card` in `api.py`,
lines 288-387). -/
inductive RecognizeResponse where
  | missingImage
  | exception (e : PyError)
  | noMatches
  | noGoodMatch (best : MatchResult)
  | found (cardId : String) (cardName : String) (conf : ℚ) (dist : Int)
      (resourceUrl : String) (topMatches : List MatchResult)
deriving Repr, DecidableEq

/-- HTTP status code of each `/recognize` response. -/
def recognizeStatus : RecognizeResponse → Nat
  | .missingImage => 400
  | .exception _ => 500
  | .noMatches => 404
  | .noGoodMatch _ => 404
  | .found _ _ _ _ _ _ => 200

/-- `recognize_card` (`api.py` lines 288-387): run `get_most_similar` with
`n = 10`, reject an empty result, reject a best match above `threshold`,
otherwise build the result with the clamped linear confidence and the
prefix-keyed image URL. -/
def recognize_card (ch : CardHashes) (image : Option FingerprintSet) (hashType : String)
    (threshold : Int) : CardHashes × RecognizeResponse :=
  match image with
  | none => (ch, .missingImage)
  | some q =>
    match get_most_similar ch q hashType 10 with
    | .error e => (ch, .exception e)
    | .ok (ch', ms) =>
      match ms with
      | [] => (ch', .noMatches)
      | best :: _ =>
        if threshold < best.distance then (ch', .noGoodMatch best)
        else
          (ch', .found best.id (derivedCardName best.id)
            (round1 (recognizeConfidence best.distance)) best.distance
            (imageUrl best.id) (ms.take 5))

/-- `add_card` (`api.py` lines 214-285): reject an id that is already
present with a 400 Conflict response and no mutation, otherwise append the
new record (and persist). The request fingerprints stand for the hashes
computed from the uploaded image. -/
inductive AddCardResponse where
  | conflict (cardId : String)
  | added (cardId : String) (totalCards : Nat)
deriving Repr, DecidableEq

def add_card (ch : CardHashes) (cardId : String) (fp : FingerprintSet) :
    CardHashes × AddCardResponse :=
  if cardId ∈ ch.rows.map (·.id) then (ch, .conflict cardId)
  else
    let ch' : CardHashes := { ch with rows := ch.rows ++ [⟨cardId, fp⟩] }
    (ch', .added cardId ch'.rows.length)

/-!  ## The catalog builder (`update_hashes_from_tcgdex.py`)  -/

/-- One card discovered in a set by the crawler: its id, and the
fingerprints computed from its image — `none` stands for the per-card
failure paths (no image URL, or a fetch/decode error), which are skipped
without being added (`update_hashes_from_tcgdex.py` lines 136-165). -/
structure CardInput where
  id : String
  hashes : Option FingerprintSet
deriving Repr, DecidableEq

/-- The mutable state of `update_hash_database`: `existing` is the loaded
catalog `existing_df` (kept in sync with the durable pickle and with the
`existing_ids` presence set — all three are updated together, only at a
batch flush); `pending` is the in-memory `new_hashes` batch. -/
structure BuilderState where
  existing : List CardHashRecord
  pending : List CardHashRecord
  totalProcessed : Nat
  totalAdded : Nat
  totalSkipped : Nat
deriving Repr, DecidableEq

/-- `if limit and total_processed >= limit` (lines 123 and 186): Python
treats `limit = None` and `limit = 0` as falsy, so only a nonzero limit is
ever compared against the counter. -/
def limitReached (limit : Option Int) (totalProcessed : Nat) : Bool :=
  match limit with
  | none => false
  | some l => !(l == 0) && decide ((totalProcessed : Int) ≥ l)

/-- The body of the per-card loop after the limit check (lines 127-180):
count the card, skip it when its id is already present, skip silently on a
missing image or failed hash computation, otherwise append to the pending
batch; flush the batch into the catalog (and the durable store) when it
reaches `batchSize`. -/
def processCard (batchSize : Nat) (st : BuilderState) (c : CardInput) : BuilderState :=
  if c.id ∈ st.existing.map (·.id) then
    { st with totalProcessed := st.totalProcessed + 1, totalSkipped := st.totalSkipped + 1 }
  else
    match c.hashes with
    | none => { st with totalProcessed := st.totalProcessed + 1 }
    | some fp =>
      if batchSize ≤ (st.pending ++ [(⟨c.id, fp⟩ : CardHashRecord)]).length then
        { st with totalProcessed := st.totalProcessed + 1, totalAdded := st.totalAdded + 1,
                  existing := st.existing ++ (st.pending ++ [(⟨c.id, fp⟩ : CardHashRecord)]),
                  pending := [] }
      else
        { st with totalProcessed := st.totalProcessed + 1, totalAdded := st.totalAdded + 1,
                  pending := st.pending ++ [(⟨c.id, fp⟩ : CardHashRecord)] }

/-- The per-set card loop with its limit check and `break` (lines 118-183). -/
def runCards (batchSize : Nat) (limit : Option Int) :
    BuilderState → List CardInput → BuilderState
  | st, [] => st
  | st, c :: cs =>
    if limitReached limit st.totalProcessed then st
    else runCards batchSize limit (processCard batchSize st c) cs

/-- The set loop with the after-set limit check and `break` (lines 108-187). -/
def runSets (batchSize : Nat) (limit : Option Int) :
    BuilderState → List (List CardInput) → BuilderState
  | st, [] => st
  | st, s :: ss =>
    let st' := runCards batchSize limit st s
    if limitReached limit st'.totalProcessed then st'
    else runSets batchSize limit st' ss

/-- Outcome of a complete (uninterrupted) run. -/
structure BuilderResult where
  durable : List CardHashRecord
  totalProcessed : Nat
  totalAdded : Nat
  totalSkipped : Nat
deriving Repr, DecidableEq

/-- `update_hash_database(batch_size, start_from, limit)` (lines 67-219):
the release-date-sorted set list is consumed from index `startFrom`; after
the loops, a non-empty pending batch is flushed to the durable store
(lines 189-194).  `durable` is the final content of the pickle. -/
def update_hash_database (existingDf : List CardHashRecord) (sortedSets : List (List CardInput))
    (batchSize : Nat) (startFrom : Nat) (limit : Option Int) : BuilderResult :=
  let st0 : BuilderState := ⟨existingDf, [], 0, 0, 0⟩
  let stF := runSets batchSize limit st0 (sortedSets.drop startFrom)
  { durable := if stF.pending = [] then stF.existing else stF.existing ++ stF.pending
    totalProcessed := stF.totalProcessed
    totalAdded := stF.totalAdded
    totalSkipped := stF.totalSkipped }

/-- Card loop under a `KeyboardInterrupt` delivered between per-card steps:
`fuel` counts the cards processed before the interrupt arrives.  Returns the
remaining fuel and the state at the moment of the interrupt. -/
def runCardsFuel (batchSize : Nat) (limit : Option Int) :
    Nat → BuilderState → List CardInput → Nat × BuilderState
  | fuel, st, [] => (fuel, st)
  | fuel, st, c :: cs =>
    if fuel = 0 then (0, st)
    else if limitReached limit st.totalProcessed then (fuel, st)
    else runCardsFuel batchSize limit (fuel - 1) (processCard batchSize st c) cs

def runSetsFuel (batchSize : Nat) (limit : Option Int) :
    Nat → BuilderState → List (List CardInput) → Nat × BuilderState
  | fuel, st, [] => (fuel, st)
  | fuel, st, s :: ss =>
    let p := runCardsFuel batchSize limit fuel st s
    if p.1 = 0 then (0, p.2)
    else if limitReached limit p.2.totalProcessed then p
    else runSetsFuel batchSize limit p.1 p.2 ss

/-- State at the moment an interrupt arrives after `k` processed cards. -/
def interruptedState (existingDf : List CardHashRecord) (sortedSets : List (List CardInput))
    (batchSize : Nat) (startFrom : Nat) (limit : Option Int) (k : Nat) : BuilderState :=
  (runSetsFuel batchSize limit k ⟨existingDf, [], 0, 0, 0⟩ (sortedSets.drop startFrom)).2

/-- Durable catalog after an operator interrupt: the `KeyboardInterrupt`
propagates out of `update_hash_database` (there is no `try`/`finally`
around the loops), so the final-batch flush of lines 189-194 never runs and
the `except KeyboardInterrupt` handler in `__main__` (lines 245-247) only
prints — the pickle still holds exactly the batches flushed before the
interrupt, i.e. the `existing` component of the state. -/
def interruptedDurable (existingDf : List CardHashRecord) (sortedSets : List (List CardInput))
    (batchSize : Nat) (startFrom : Nat) (limit : Option Int) (k : Nat) : List CardHashRecord :=
  (interruptedState existingDf sortedSets batchSize startFrom limit k).existing

/-!  ## Fingerprint lengths across the three components (C8)  -/

/-- Vector length of `imagehash.phash(img, hash_size, highfreq_factor)`:
a `hash_size × hash_size` bit matrix. -/
def phashLen (hashSize : Nat) : Nat := hashSize * hashSize

/-- Vector length of `imagehash.dhash(img, hash_size)`: `hash_size²` bits. -/
def dhashLen (hashSize : Nat) : Nat := hashSize * hashSize

/-- Vector length of `imagehash.whash(img, hash_size)`: `hash_size²` bits. -/
def whashLen (hashSize : Nat) : Nat := hashSize * hashSize

/-- Vector length of `imagehash.colorhash(img, binbits)`: `binbits` bits for
each of the 14 histogram bins (the imagehash documentation: the resulting
hash has `binbits * 14` bits). -/
def colorhashLen (binbits : Nat) : Nat := binbits * 14

/-- The four vector lengths one component produces. -/
structure FingerprintLengths where
  perceptual : Nat
  difference : Nat
  wavelet : Nat
  color : Nat
deriving Repr, DecidableEq

/-- Lengths produced by the API (`get_hashes` in `api.py` lines 23-34):
`phash(img, 32, 8)`, `dhash(img, 32)`, `whash(img, 32)`, `colorhash(img)`
with the library default `binbits=3`. -/
def apiFingerprintLengths : FingerprintLengths :=
  ⟨phashLen 32, dhashLen 32, whashLen 32, colorhashLen 3⟩

/-- Lengths produced by the catalog builder (`compute_hashes_for_image` in
`update_hashes_from_tcgdex.py` lines 49-52): the same calls as the API. -/
def builderFingerprintLengths : FingerprintLengths :=
  ⟨phashLen 32, dhashLen 32, whashLen 32, colorhashLen 3⟩

/-- Lengths produced by the standalone hash tool (`compute_card_hash` in
`compute_hash.py` lines 16-19): `hash_size=16` for the three bit hashes and
`binbits=8` for the color hash. -/
def toolFingerprintLengths : FingerprintLengths :=
  ⟨phashLen 16, dhashLen 16, whashLen 16, colorhashLen 8⟩

/-!  ## Confidence properties (C3)  -/

lemma round1_mono {q r : ℚ} (h : q ≤ r) : round1 q ≤ round1 r := by
  unfold round1
  have hr : round (q * 10) ≤ round (r * 10) := by
    rw [round_eq, round_eq]
    exact Int.floor_le_floor (by linarith)
  have hc : ((round (q * 10) : ℤ) : ℚ) ≤ ((round (r * 10) : ℤ) : ℚ) := by
    exact_mod_cast hr
  linarith

lemma round1_intCast (k : Int) : round1 ((k : ℚ)) = k := by
  unfold round1
  have h : ((k : ℚ) * 10) = ((10 * k : Int) : ℚ) := by push_cast; ring
  rw [h, round_intCast]
  push_cast
  field_simp

lemma recognizeConfidence_antitone {d e : Int} (h : d ≤ e) :
    recognizeConfidence e ≤ recognizeConfidence d := by
  unfold recognizeConfidence
  have hq : (d : ℚ) ≤ (e : ℚ) := by exact_mod_cast h
  exact max_le_max (le_refl 50) (min_le_min (le_refl 100) (by linarith))

lemma recognizeConfidence_lb (d : Int) : 50 ≤ recognizeConfidence d :=
  le_max_left _ _

lemma recognizeConfidence_ub (d : Int) : recognizeConfidence d ≤ 100 :=
  max_le (by norm_num) (min_le_left _ _)

lemma recognizeConfidence_clamped {d : Int} (h : 150 ≤ d) : recognizeConfidence d = 50 := by
  unfold recognizeConfidence
  have hd : (150 : ℚ) ≤ (d : ℚ) := by exact_mod_cast h
  have h1 : 100 - (d : ℚ) / 3 ≤ 50 := by linarith
  rw [min_eq_right (by linarith), max_eq_left h1]

/-- C3 (counterexample): at distance 30 the reported confidence is 90.0,
not 50.0, and the clamp has not yet engaged at distance 31 — refuting
"confidence(30) = 50.0 exactly" and "clamped beyond distance 30" (the
formula `clamp(100 - d/3, 50, 100)` only reaches its 50 floor at
distance 150). -/
theorem recognize_confidence_at_thirty :
    round1 (recognizeConfidence 30) = 90 ∧ (90 : ℚ) ≠ 50 ∧
    round1 (recognizeConfidence 31) < 90 ∧ round1 (recognizeConfidence 31) ≠ 50 := by
  have h30 : recognizeConfidence 30 = 90 := by
    unfold recognizeConfidence; norm_num
  have h31 : recognizeConfidence 31 = 269 / 3 := by
    unfold recognizeConfidence; rw [min_eq_right (by norm_num), max_eq_right (by norm_num)]
    norm_num
  have hr30 : round1 (recognizeConfidence 30) = 90 := by
    rw [h30]
    have := round1_intCast 90
    norm_num at this
    exact this
  have hr31 : round1 (recognizeConfidence 31) = 897 / 10 := by
    rw [h31]
    unfold round1
    norm_num [round_eq]
  refine ⟨hr30, by norm_num, ?_, ?_⟩
  · rw [hr31]; norm_num
  · rw [hr31]; norm_num

/-- C3 (amended): the reported confidence is `round(clamp(100 - d/3, 50,
100), 1)`: monotonically non-increasing in the distance, bounded to
`[50, 100]`, with confidence 100.0 at distance 0 and 90.0 (not 50.0) at
distance 30; the 50 floor engages only from distance 150 on. -/
theorem recognize_confidence_amended :
    (∀ d e : Int, d ≤ e → round1 (recognizeConfidence e) ≤ round1 (recognizeConfidence d)) ∧
    (∀ d : Int, 50 ≤ round1 (recognizeConfidence d) ∧ round1 (recognizeConfidence d) ≤ 100) ∧
    round1 (recognizeConfidence 0) = 100 ∧
    round1 (recognizeConfidence 30) = 90 ∧
    (∀ d : Int, 150 ≤ d → round1 (recognizeConfidence d) = 50) := by
  have h50 : round1 ((50 : ℚ)) = 50 := by
    have := round1_intCast 50; norm_num at this; exact this
  have h100 : round1 ((100 : ℚ)) = 100 := by
    have := round1_intCast 100; norm_num at this; exact this
  refine ⟨?_, ?_, ?_, ?_, ?_⟩
  · intro d e h
    exact round1_mono (recognizeConfidence_antitone h)
  · intro d
    constructor
    · rw [← h50]; exact round1_mono (recognizeConfidence_lb d)
    · rw [← h100]; exact round1_mono (recognizeConfidence_ub d)
  · have h0 : recognizeConfidence 0 = 100 := by unfold recognizeConfidence; norm_num
    rw [h0, h100]
  · have h30 : recognizeConfidence 30 = 90 := by unfold recognizeConfidence; norm_num
    rw [h30]
    have := round1_intCast 90; norm_num at this; exact this
  · intro d hd
    rw [recognizeConfidence_clamped hd, h50]

theorem recognize_confidence_amended_witness :
    round1 (recognizeConfidence 5) ≤ round1 (recognizeConfidence 3) ∧
    round1 (recognizeConfidence 200) = 50 :=
  ⟨recognize_confidence_amended.1 3 5 (by norm_num),
   recognize_confidence_amended.2.2.2.2 200 (by norm_num)⟩

/-!  ## URL derivation properties (C9)  -/

lemma splitDash_no_dash (a : List Char) (ha : '-' ∉ a) : splitDash a = [a] := by
  induction a with
  | nil => rfl
  | cons c cs ih =>
    have hc : ¬ c = '-' := fun h => ha (h ▸ List.mem_cons_self c cs)
    have hcs : '-' ∉ cs := fun h => ha (List.mem_cons_of_mem c h)
    simp [splitDash, hc, ih hcs]

lemma splitDash_append (a rest : List Char) (ha : '-' ∉ a) :
    splitDash (a ++ '-' :: rest) = a :: splitDash rest := by
  induction a with
  | nil => simp [splitDash]
  | cons c cs ih =>
    have hc : ¬ c = '-' := fun h => ha (h ▸ List.mem_cons_self c cs)
    have hcs : '-' ∉ cs := fun h => ha (List.mem_cons_of_mem c h)
    show splitDash (c :: (cs ++ '-' :: rest)) = (c :: cs) :: splitDash rest
    rw [splitDash, if_neg hc, ih hcs]

/-- C9 (amended): the URL policy splits the id on every `-`: for an id with
at least one dash, the set prefix is the first dash-free segment and the
card number is the SECOND dash-free segment — everything from the second
dash on is discarded (not "everything after the first dash"); template
selection (tcgdex for `sv`/`swsh`/`sm`/`xy` prefixes, pokemontcg.io
otherwise, fallback for ids with no dash) is as claimed. -/
theorem image_url_policy_amended :
    (∀ s : List Char, '-' ∉ s → imageUrlChars s = urlFallback s) ∧
    (∀ a b : List Char, '-' ∉ a → '-' ∉ b →
      imageUrlChars (a ++ '-' :: b) =
        if isModernSet a then urlTcgdex a b else urlPokemonTcgIo a b) ∧
    (∀ a b rest : List Char, '-' ∉ a → '-' ∉ b →
      imageUrlChars (a ++ '-' :: (b ++ '-' :: rest)) =
        if isModernSet a then urlTcgdex a b else urlPokemonTcgIo a b) := by
  refine ⟨?_, ?_, ?_⟩
  · intro s hs
    unfold imageUrlChars
    rw [if_neg hs]
  · intro a b ha hb
    have hmem : '-' ∈ a ++ '-' :: b := List.mem_append_right a (List.mem_cons_self _ _)
    unfold imageUrlChars
    rw [if_pos hmem, splitDash_append a b ha, splitDash_no_dash b hb]
    rfl
  · intro a b rest ha hb
    have hmem : '-' ∈ a ++ '-' :: (b ++ '-' :: rest) :=
      List.mem_append_right a (List.mem_cons_self _ _)
    unfold imageUrlChars
    rw [if_pos hmem, splitDash_append a _ ha, splitDash_append b rest hb]
    rfl

theorem image_url_policy_amended_witness :
    imageUrlChars ("sv01".data ++ '-' :: ("003".data ++ '-' :: "promo".data)) =
      if isModernSet "sv01".data then urlTcgdex "sv01".data "003".data
      else urlPokemonTcgIo "sv01".data "003".data :=
  image_url_policy_amended.2.2 "sv01".data "003".data "promo".data (by decide) (by decide)

/-- C9 (counterexample): for the id `base4-1-a` (two dashes) the code's
card number is `1` — the segment between the first and second dash — so the
generated URL is `.../base4/1_hires.png`, not the `.../base4/1-a_hires.png`
that "cardNumber is everything after the first dash" would give. -/
theorem image_url_multi_dash_counter :
    imageUrl "base4-1-a" = "https://images.pokemontcg.io/base4/1_hires.png" ∧
    imageUrl "base4-1-a" ≠ "https://images.pokemontcg.io/base4/1-a_hires.png" := by
  constructor
  · rfl
  · decide

/-!  ## Invalid hash type handling (C6)  -/

lemma fingerprintOf_eq_none_of_invalid {q : FingerprintSet} {t : String}
    (ht : ¬ ValidHashType t) : fingerprintOf q t = none := by
  unfold ValidHashType at ht
  push_neg at ht
  obtain ⟨h1, h2, h3, h4⟩ := ht
  unfold fingerprintOf
  rw [if_neg h1, if_neg h2, if_neg h3, if_neg h4]

/-- C6 (amended): a request with an unrecognized hash type fails
immediately — before any state change, the catalog is returned untouched —
but through the generic catch-all exception path (the `KeyError` carrying
the raw key, surfaced by the blanket `except Exception` as an HTTP 500),
for both `/match` and `/recognize`; the code has no dedicated
InvalidHashType error kind. -/
theorem invalid_hash_type_generic_error (ch : CardHashes) (q : FingerprintSet) (t : String)
    (n threshold : Int) (ht : ¬ ValidHashType t) :
    match_card ch (some q) t n = (ch, .exception (.keyError t)) ∧
    recognize_card ch (some q) t threshold = (ch, .exception (.keyError t)) ∧
    matchStatus (match_card ch (some q) t n).2 = 500 ∧
    recognizeStatus (recognize_card ch (some q) t threshold).2 = 500 := by
  have hnone := fingerprintOf_eq_none_of_invalid (q := q) ht
  have hm : match_card ch (some q) t n = (ch, .exception (.keyError t)) := by
    unfold match_card get_most_similar
    dsimp only
    rw [hnone]
  have hr : recognize_card ch (some q) t threshold = (ch, .exception (.keyError t)) := by
    unfold recognize_card get_most_similar
    dsimp only
    rw [hnone]
  refine ⟨hm, hr, ?_, ?_⟩
  · rw [hm]; rfl
  · rw [hr]; rfl

theorem invalid_hash_type_generic_error_witness :
    match_card wCatalog (some wFpQuery) "sha256" 5 =
      (wCatalog, .exception (.keyError "sha256")) ∧
    recognize_card wCatalog (some wFpQuery) "sha256" 30 =
      (wCatalog, .exception (.keyError "sha256")) ∧
    matchStatus (match_card wCatalog (some wFpQuery) "sha256" 5).2 = 500 ∧
    recognizeStatus (recognize_card wCatalog (some wFpQuery) "sha256" 30).2 = 500 :=
  invalid_hash_type_generic_error wCatalog wFpQuery "sha256" 5 30 (by decide)

/-- C6 (counterexample): the response to an unrecognized hash type is the
generic exception response — the same catch-all kind (HTTP 500, message the
raw `KeyError` key) used for any unexpected internal failure — while the
API's dedicated immediately-surfaced input errors answer 400; there is no
dedicated InvalidHashType error kind in the code. -/
theorem invalid_hash_type_no_dedicated_error :
    (match_card wTieCatalog (some wFpQuery) "sha256" 5).2 =
      .exception (.keyError "sha256") ∧
    matchStatus (match_card wTieCatalog (some wFpQuery) "sha256" 5).2 = 500 ∧
    matchStatus (match_card wTieCatalog none "perceptual" 5).2 = 400 :=
  ⟨rfl, rfl, rfl⟩

/-!  ## Fingerprint length interoperability (C8)  -/

/-- C8 (counterexample): the standalone hash tool computes its fingerprints
at different vector lengths than the API: `phash` with `hash_size=16` gives
256 bits against the API's 1024. -/
theorem hash_lengths_tool_differs :
    toolFingerprintLengths ≠ apiFingerprintLengths ∧
    toolFingerprintLengths.perceptual = 256 ∧
    apiFingerprintLengths.perceptual = 1024 := by
  refine ⟨by decide, rfl, rfl⟩

/-- C8 (amended): the API and the catalog builder call the hash library
with identical parameters and so produce the four fingerprint vectors at
identical configuration-fixed lengths (1024 bits for the three bit hashes,
3 bits for each of the 14 color bins); the standalone hash tool
(`compute_hash.py`) instead uses `hash_size=16` and `binbits=8`, producing
incompatible lengths 256/256/256/112. -/
theorem hash_lengths_api_builder_agree :
    apiFingerprintLengths = builderFingerprintLengths ∧
    apiFingerprintLengths = ⟨1024, 1024, 1024, 42⟩ ∧
    toolFingerprintLengths = ⟨256, 256, 256, 112⟩ := by
  refine ⟨rfl, rfl, rfl⟩

/-!  ## Builder invariants (C4, C7, C10)  -/

/-- Number of records in `l` carrying id `i`. -/
def countId (l : List CardHashRecord) (i : String) : Nat :=
  (l.filter (fun r => r.id == i)).length

lemma countId_append (a b : List CardHashRecord) (i : String) :
    countId (a ++ b) i = countId a i + countId b i := by
  simp [countId, List.filter_append]

/-- A single card step neither removes an id from the flushed catalog nor
changes the multiplicity of an id that is already in the flushed catalog. -/
lemma processCard_mem_count (bs : Nat) (st : BuilderState) (c : CardInput) (i : String)
    (h : i ∈ st.existing.map (·.id)) :
    countId ((processCard bs st c).existing ++ (processCard bs st c).pending) i
        = countId (st.existing ++ st.pending) i ∧
      i ∈ (processCard bs st c).existing.map (·.id) := by
  unfold processCard
  by_cases hmem : c.id ∈ st.existing.map (·.id)
  · rw [if_pos hmem]
    exact ⟨rfl, h⟩
  · rw [if_neg hmem]
    cases hc : c.hashes with
    | none => exact ⟨rfl, h⟩
    | some fp =>
      dsimp only
      have hne : ¬ ((⟨c.id, fp⟩ : CardHashRecord).id == i) = true := by
        intro he
        exact hmem (by
          have hci : c.id = i := by simpa using he
          rw [hci]; exact h)
      by_cases hflush : bs ≤ (st.pending ++ [(⟨c.id, fp⟩ : CardHashRecord)]).length
      · rw [if_pos hflush]
        refine ⟨?_, ?_⟩
        · simp [countId_append, countId, List.filter_cons, hne]
        · simp only [List.map_append, List.mem_append]
          exact Or.inl h
      · rw [if_neg hflush]
        refine ⟨?_, h⟩
        simp [countId_append, countId, List.filter_cons, hne]

lemma runCards_mem_count (bs : Nat) (limit : Option Int) (cs : List CardInput)
    (st : BuilderState) (i : String) (h : i ∈ st.existing.map (·.id)) :
    countId ((runCards bs limit st cs).existing ++ (runCards bs limit st cs).pending) i
        = countId (st.existing ++ st.pending) i ∧
      i ∈ (runCards bs limit st cs).existing.map (·.id) := by
  induction cs generalizing st with
  | nil => exact ⟨rfl, h⟩
  | cons c cs ih =>
    unfold runCards
    by_cases hl : limitReached limit st.totalProcessed
    · rw [if_pos hl]; exact ⟨rfl, h⟩
    · rw [if_neg hl]
      obtain ⟨h1, h2⟩ := processCard_mem_count bs st c i h
      obtain ⟨h3, h4⟩ := ih (processCard bs st c) h2
      exact ⟨h3.trans h1, h4⟩

lemma runSets_mem_count (bs : Nat) (limit : Option Int) (ss : List (List CardInput))
    (st : BuilderState) (i : String) (h : i ∈ st.existing.map (·.id)) :
    countId ((runSets bs limit st ss).existing ++ (runSets bs limit st ss).pending) i
        = countId (st.existing ++ st.pending) i ∧
      i ∈ (runSets bs limit st ss).existing.map (·.id) := by
  induction ss generalizing st with
  | nil => exact ⟨rfl, h⟩
  | cons s ss ih =>
    unfold runSets
    obtain ⟨h1, h2⟩ := runCards_mem_count bs limit s st i h
    by_cases hl : limitReached limit (runCards bs limit st s).totalProcessed
    · rw [if_pos hl]; exact ⟨h1, h2⟩
    · rw [if_neg hl]
      obtain ⟨h3, h4⟩ := ih (runCards bs limit st s) h2
      exact ⟨h3.trans h1, h4⟩

lemma update_durable_count (existingDf : List CardHashRecord) (sets : List (List CardInput))
    (bs sf : Nat) (limit : Option Int) (i : String) (h : i ∈ existingDf.map (·.id)) :
    countId (update_hash_database existingDf sets bs sf limit).durable i
      = countId existingDf i := by
  unfold update_hash_database
  obtain ⟨h1, _⟩ := runSets_mem_count bs limit (sets.drop sf) ⟨existingDf, [], 0, 0, 0⟩ i h
  dsimp only at h1 ⊢
  split
  · rename_i hp
    rw [hp, List.append_nil] at h1
    rw [h1, countId_append]
    simp [countId]
  · rw [h1, countId_append]
    simp [countId]

/-- C4 (amended): `add_card` with an already-present id fails Conflict and
leaves the catalog untouched, and preserves id-uniqueness; the builder
never appends a card whose id is already in the flushed catalog (loaded at
start or persisted by an earlier batch flush) — the multiplicity of every
initially-present id is unchanged by a whole run.  (Ids merely pending in
the unflushed batch are NOT checked: see the counterexample.) -/
theorem catalog_id_unique_amended :
    (∀ ch cardId fp, cardId ∈ ch.rows.map (·.id) →
      add_card ch cardId fp = (ch, .conflict cardId)) ∧
    (∀ ch cardId fp, (ch.rows.map (·.id)).Nodup →
      ((add_card ch cardId fp).1.rows.map (·.id)).Nodup) ∧
    (∀ existingDf sets bs sf limit i, i ∈ existingDf.map (·.id) →
      countId (update_hash_database existingDf sets bs sf limit).durable i
        = countId existingDf i) := by
  refine ⟨?_, ?_, ?_⟩
  · intro ch cardId fp hmem
    unfold add_card
    rw [if_pos hmem]
  · intro ch cardId fp hnodup
    unfold add_card
    by_cases hmem : cardId ∈ ch.rows.map (·.id)
    · rw [if_pos hmem]; exact hnodup
    · rw [if_neg hmem]
      simp only [List.map_append, List.map_cons, List.map_nil]
      rw [List.nodup_append]
      exact ⟨hnodup, List.nodup_singleton _, by
        intro a ha hb
        simp only [List.mem_singleton] at hb
        exact hmem (hb ▸ ha)⟩
  · intro existingDf sets bs sf limit i h
    exact update_durable_count existingDf sets bs sf limit i h

/-- Fingerprints used by the concrete builder scenarios. -/
def bFp : FingerprintSet := ⟨[true], [true], [true], [false]⟩

theorem catalog_id_unique_amended_witness :
    countId (update_hash_database [⟨"base1-4", bFp⟩]
        [[⟨"base1-4", some bFp⟩, ⟨"base1-5", some bFp⟩]] 50 0 none).durable "base1-4"
      = countId [⟨"base1-4", bFp⟩] "base1-4" :=
  catalog_id_unique_amended.2.2 [⟨"base1-4", bFp⟩]
    [[⟨"base1-4", some bFp⟩, ⟨"base1-5", some bFp⟩]] 50 0 none "base1-4" (by decide)

/-- C4 (counterexample): the builder checks a card id only against
`existing_ids`, which is refreshed at batch flushes — the same id arriving
twice before any flush is appended twice, leaving a duplicate id in the
durable catalog (here: batch size 50, the batch never fills, and the run
ends with two `dup-1` records). -/
theorem builder_duplicate_within_batch :
    ((update_hash_database [] [[⟨"dup-1", some bFp⟩, ⟨"dup-1", some bFp⟩]] 50 0 none).durable.map
      (·.id)) = ["dup-1", "dup-1"] := by
  decide

/-- C7: interrupting the builder with three computed records pending (batch
size 50) persists nothing: the durable catalog is still empty at the
interrupt — the `KeyboardInterrupt` handler only prints, no flush runs —
and a rerun from the same offset skips none of the three and recomputes
all of them, contradicting both the claim and the handler's own "Progress
has been saved." message. -/
theorem builder_interrupt_loses_pending :
    interruptedDurable [] [[⟨"int-1", some bFp⟩, ⟨"int-2", some bFp⟩, ⟨"int-3", some bFp⟩]]
        50 0 none 3 = [] ∧
    (interruptedState [] [[⟨"int-1", some bFp⟩, ⟨"int-2", some bFp⟩, ⟨"int-3", some bFp⟩]]
        50 0 none 3).pending.length = 3 ∧
    (update_hash_database
        (interruptedDurable [] [[⟨"int-1", some bFp⟩, ⟨"int-2", some bFp⟩, ⟨"int-3", some bFp⟩]]
          50 0 none 3)
        [[⟨"int-1", some bFp⟩, ⟨"int-2", some bFp⟩, ⟨"int-3", some bFp⟩]]
        50 0 none).totalSkipped = 0 ∧
    (update_hash_database
        (interruptedDurable [] [[⟨"int-1", some bFp⟩, ⟨"int-2", some bFp⟩, ⟨"int-3", some bFp⟩]]
          50 0 none 3)
        [[⟨"int-1", some bFp⟩, ⟨"int-2", some bFp⟩, ⟨"int-3", some bFp⟩]]
        50 0 none).totalAdded = 3 := by
  refine ⟨rfl, rfl, rfl, rfl⟩

/-!  ## Limit semantics (C10)  -/

lemma limitReached_zero_eq_none (p : Nat) : limitReached (some 0) p = limitReached none p := rfl

lemma runCards_limit_ext (bs : Nat) (l1 l2 : Option Int)
    (h : ∀ p, limitReached l1 p = limitReached l2 p) (cs : List CardInput) (st : BuilderState) :
    runCards bs l1 st cs = runCards bs l2 st cs := by
  induction cs generalizing st with
  | nil => rfl
  | cons c cs ih =>
    unfold runCards
    rw [h st.totalProcessed]
    by_cases hc : limitReached l2 st.totalProcessed
    · rw [if_pos hc, if_pos hc]
    · rw [if_neg hc, if_neg hc, ih]

lemma runSets_limit_ext (bs : Nat) (l1 l2 : Option Int)
    (h : ∀ p, limitReached l1 p = limitReached l2 p) (ss : List (List CardInput))
    (st : BuilderState) :
    runSets bs l1 st ss = runSets bs l2 st ss := by
  induction ss generalizing st with
  | nil => rfl
  | cons s ss ih =>
    unfold runSets
    dsimp only
    rw [runCards_limit_ext bs l1 l2 h s st, h]
    by_cases hc : limitReached l2 (runCards bs l2 st s).totalProcessed
    · rw [if_pos hc, if_pos hc]
    · rw [if_neg hc, if_neg hc, ih]

lemma processCard_totalProcessed (bs : Nat) (st : BuilderState) (c : CardInput) :
    (processCard bs st c).totalProcessed = st.totalProcessed + 1 := by
  unfold processCard
  by_cases hmem : c.id ∈ st.existing.map (·.id)
  · rw [if_pos hmem]
  · rw [if_neg hmem]
    cases hc : c.hashes with
    | none => rfl
    | some fp =>
      dsimp only
      by_cases hflush : bs ≤ (st.pending ++ [(⟨c.id, fp⟩ : CardHashRecord)]).length
      · rw [if_pos hflush]
      · rw [if_neg hflush]

lemma processCard_counters (bs : Nat) (st : BuilderState) (c : CardInput) :
    (processCard bs st c).totalAdded + (processCard bs st c).totalSkipped
      ≤ st.totalAdded + st.totalSkipped + 1 := by
  unfold processCard
  by_cases hmem : c.id ∈ st.existing.map (·.id)
  · rw [if_pos hmem]; dsimp only; omega
  · rw [if_neg hmem]
    cases hc : c.hashes with
    | none => dsimp only; omega
    | some fp =>
      dsimp only
      by_cases hflush : bs ≤ (st.pending ++ [(⟨c.id, fp⟩ : CardHashRecord)]).length
      · rw [if_pos hflush]; dsimp only; omega
      · rw [if_neg hflush]; dsimp only; omega

lemma not_limitReached_lt {l : Int} {p : Nat} (hl : 0 < l)
    (h : ¬ limitReached (some l) p = true) : (p : Int) < l := by
  unfold limitReached at h
  simp only [Bool.and_eq_true, bne_iff_ne, ne_eq, decide_eq_true_eq, beq_iff_eq,
    Bool.not_eq_true', Bool.not_eq_false] at h
  by_contra hc
  push_neg at hc
  exact h ⟨by simp [show l ≠ 0 by omega], by exact hc⟩

lemma runCards_totalProcessed_le (bs : Nat) (l : Int) (hl : 0 < l) (cs : List CardInput)
    (st : BuilderState) (h : (st.totalProcessed : Int) ≤ l) :
    ((runCards bs (some l) st cs).totalProcessed : Int) ≤ l := by
  induction cs generalizing st with
  | nil => exact h
  | cons c cs ih =>
    unfold runCards
    by_cases hr : limitReached (some l) st.totalProcessed
    · rw [if_pos hr]; exact h
    · rw [if_neg hr]
      apply ih
      rw [processCard_totalProcessed]
      have := not_limitReached_lt hl hr
      push_cast
      omega

lemma runSets_totalProcessed_le (bs : Nat) (l : Int) (hl : 0 < l) (ss : List (List CardInput))
    (st : BuilderState) (h : (st.totalProcessed : Int) ≤ l) :
    ((runSets bs (some l) st ss).totalProcessed : Int) ≤ l := by
  induction ss generalizing st with
  | nil => exact h
  | cons s ss ih =>
    unfold runSets
    have hs := runCards_totalProcessed_le bs l hl s st h
    by_cases hr : limitReached (some l) (runCards bs (some l) st s).totalProcessed
    · rw [if_pos hr]; exact hs
    · rw [if_neg hr]; exact ih _ hs

lemma runCards_counters (bs : Nat) (limit : Option Int) (cs : List CardInput)
    (st : BuilderState)
    (h : st.totalAdded + st.totalSkipped ≤ st.totalProcessed) :
    (runCards bs limit st cs).totalAdded + (runCards bs limit st cs).totalSkipped
      ≤ (runCards bs limit st cs).totalProcessed := by
  induction cs generalizing st with
  | nil => exact h
  | cons c cs ih =>
    unfold runCards
    by_cases hr : limitReached limit st.totalProcessed
    · rw [if_pos hr]; exact h
    · rw [if_neg hr]
      apply ih
      have h1 := processCard_counters bs st c
      have h2 := processCard_totalProcessed bs st c
      omega

lemma runSets_counters (bs : Nat) (limit : Option Int) (ss : List (List CardInput))
    (st : BuilderState)
    (h : st.totalAdded + st.totalSkipped ≤ st.totalProcessed) :
    (runSets bs limit st ss).totalAdded + (runSets bs limit st ss).totalSkipped
      ≤ (runSets bs limit st ss).totalProcessed := by
  induction ss generalizing st with
  | nil => exact h
  | cons s ss ih =>
    unfold runSets
    have hs := runCards_counters bs limit s st h
    by_cases hr : limitReached limit (runCards bs limit st s).totalProcessed
    · rw [if_pos hr]; exact hs
    · rw [if_neg hr]; exact ih _ hs

/-- C10 (amended): a limit of 0 is treated exactly as an absent limit (the
whole run is identical); a strictly positive limit `l` bounds the processed
counter by `l`; and that counter counts skipped already-present cards as
well as added ones (`totalAdded + totalSkipped ≤ totalProcessed`, both
incremented under it).  A NEGATIVE limit, however, also bounds the run — it
is nonzero, so the check fires immediately (see the counterexample). -/
theorem builder_limit_amended :
    (∀ ex sets bs sf, update_hash_database ex sets bs sf (some 0)
        = update_hash_database ex sets bs sf none) ∧
    (∀ ex sets bs sf l, 0 < l →
      ((update_hash_database ex sets bs sf (some l)).totalProcessed : Int) ≤ l) ∧
    (∀ ex sets bs sf limit,
      (update_hash_database ex sets bs sf limit).totalAdded
          + (update_hash_database ex sets bs sf limit).totalSkipped
        ≤ (update_hash_database ex sets bs sf limit).totalProcessed) := by
  refine ⟨?_, ?_, ?_⟩
  · intro ex sets bs sf
    unfold update_hash_database
    dsimp only
    rw [runSets_limit_ext bs (some 0) none limitReached_zero_eq_none]
  · intro ex sets bs sf l hl
    unfold update_hash_database
    exact runSets_totalProcessed_le bs l hl (sets.drop sf) ⟨ex, [], 0, 0, 0⟩
      (by dsimp only; omega)
  · intro ex sets bs sf limit
    unfold update_hash_database
    exact runSets_counters bs limit (sets.drop sf) ⟨ex, [], 0, 0, 0⟩ (by simp)

theorem builder_limit_amended_witness :
    ((update_hash_database [] [[⟨"lim-1", some bFp⟩, ⟨"lim-2", some bFp⟩,
        ⟨"lim-3", some bFp⟩]] 50 0 (some 2)).totalProcessed : Int) ≤ 2 :=
  builder_limit_amended.2.1 [] [[⟨"lim-1", some bFp⟩, ⟨"lim-2", some bFp⟩,
    ⟨"lim-3", some bFp⟩]] 50 0 2 (by norm_num)

/-- C10 (counterexample): a limit of `-1` is not strictly positive, yet it
bounds the run — `if limit and total_processed >= limit` fires on the very
first card (`0 >= -1`), so nothing is processed, while the same run with no
limit processes and adds the card. -/
theorem builder_negative_limit_bounds :
    (update_hash_database [] [[⟨"neg-1", some bFp⟩]] 50 0 (some (-1))).totalProcessed = 0 ∧
    (update_hash_database [] [[⟨"neg-1", some bFp⟩]] 50 0 (some (-1))).totalAdded = 0 ∧
    (update_hash_database [] [[⟨"neg-1", some bFp⟩]] 50 0 none).totalProcessed = 1 ∧
    (update_hash_database [] [[⟨"neg-1", some bFp⟩]] 50 0 none).totalAdded = 1 := by
  refine ⟨rfl, rfl, rfl, rfl⟩

end PokeDetector
